import Mathlib

/-! EdgeViewer: the native frame pipeline.

A shallow embedding of `app/src/main/cpp/native-lib.cpp`, the single JNI entry
point `Java_com_example_edgeviewer_NativeBridge_processFrame`, followed by the
properties of that function.

The function talks to two outside parties:

* the Java VM, through `GetByteArrayElements`, `GetDirectBufferAddress` and
  `ReleaseByteArrayElements`;
* the image library, through `cv::cvtColor` and `cv::Canny`.

Neither is part of the repository. The VM calls are modelled by their JNI
contract (each of the two lookups may answer with a null pointer). The image
library is a parameter `cv : ImgLib`; a call of it either yields a matrix or
raises (`none`), and a raise leaves `processFrame` at once, as a C++ exception
does in a function without a handler.

The matrix header of line 22 records no length: it addresses
`(height + height/2) * width` bytes from the start of the source elements,
whether or not the array holds that many. The bytes that follow the elements
in memory are part of the environment (`JNIEnv.memoryAfter`), and a view that
is longer than the array reads them.
-/

namespace EdgeViewer

/-! ## Machine integers -/

/-- One byte of a buffer, by its unsigned value (`unsigned char`). -/
abbrev Byte := Nat

/-- Largest value of a `jint` (32-bit signed). -/
def jintMax : Int := 2 ^ 31 - 1

/-- Reduction of an integer to the range of a 32-bit signed `jint`. -/
def wrapInt32 (x : Int) : Int := (x + 2 ^ 31) % 2 ^ 32 - 2 ^ 31

/-- The cast `static_cast<size_t>(x)` of a `jint`, with a 64-bit `size_t`. -/
def toSizeT (x : Int) : Nat := (x % 2 ^ 64).toNat

/-- Line 36: `static_cast<size_t>(width) * static_cast<size_t>(height)`,
a product of two 64-bit unsigned values. -/
def copyLen (width height : Int) : Nat := (toSizeT width * toSizeT height) % 2 ^ 64

/-- Line 22: `height + height / 2` in `jint` arithmetic (`/` truncates). -/
def yuvRows (height : Int) : Int := wrapInt32 (height + height.tdiv 2)

/-! ## Matrices and the image library -/

/-- A `cv::Mat` header: shape, channel count and the bytes its data pointer
addresses. -/
structure Mat where
  rows : Int
  cols : Int
  channels : Nat
  data : List Byte
deriving DecidableEq

/-- The two conversion codes passed to `cv::cvtColor`. -/
inductive ColorCode where
  | COLOR_YUV2RGBA_NV21
  | COLOR_RGBA2GRAY
deriving DecidableEq

/-- The image library as the pipeline sees it. `none` stands for a raised
`cv::Exception`. -/
structure ImgLib where
  cvtColor : Mat → ColorCode → Option Mat
  Canny : Mat → Nat → Nat → Option Mat

/-! ## The Java side -/

/-- A `java.nio.ByteBuffer`: only a direct buffer has a native address. -/
structure ByteBuffer where
  isDirect : Bool
  bytes : List Byte
deriving DecidableEq

/-- What the VM answers to this call, and the memory that lies behind the
elements it hands out (byte `i` after the last element). -/
structure JNIEnv where
  elementsAvailable : Bool
  memoryAfter : Nat → Byte

/-- `GetByteArrayElements(array, nullptr)`: the elements of the array, or a
null pointer when the VM cannot provide them. -/
def GetByteArrayElements (env : JNIEnv) (array : List Byte) : Option (List Byte) :=
  if env.elementsAvailable then some array else none

/-- `GetDirectBufferAddress(buf)`: the memory of a direct buffer, a null
pointer for any other object. -/
def GetDirectBufferAddress (buf : ByteBuffer) : Option (List Byte) :=
  if buf.isDirect then some buf.bytes else none

/-- The release modes of `ReleaseByteArrayElements`. -/
inductive ReleaseMode where
  | copyBackAndFree
  | JNI_COMMIT
  | JNI_ABORT
deriving DecidableEq

/-- `ReleaseByteArrayElements(array, elems, mode)`: the content of the Java
array afterwards. Only `JNI_ABORT` drops the native elements without copying
them back. -/
def ReleaseByteArrayElements (array elems : List Byte) : ReleaseMode → List Byte
  | .JNI_ABORT => array
  | .JNI_COMMIT => elems
  | .copyBackAndFree => elems

/-- The `n` bytes a pointer to the elements addresses: the elements, then the
memory behind them. -/
def viewBytes (elems : List Byte) (after : Nat → Byte) (n : Nat) : List Byte :=
  (List.range n).map fun i => (elems[i]?).getD (after (i - elems.length))

/-- `memcpy(dst, src, n)`: defined only when both regions hold `n` bytes. -/
def memcpy (dst src : List Byte) (n : Nat) : Option (List Byte) :=
  if n ≤ src.length ∧ n ≤ dst.length then some (src.take n ++ dst.drop n) else none

/-! ## Observable effects -/

/-- The calls `processFrame` makes, in order. -/
inductive Event where
  | acquireFailed
  | acquire
  | cvtColor (code : ColorCode)
  | canny (low high : Nat)
  | memcpy (n : Nat)
  | release (mode : ReleaseMode)
deriving DecidableEq

/-- The caller's buffers after the call, and the calls that were made. -/
structure World where
  frameData : Option (List Byte)
  outputBuffer : Option ByteBuffer
  log : List Event
deriving DecidableEq

/-- How a call ends: by `return`, by an exception of the image library
that leaves the function, or in undefined behaviour (`memcpy` outside a
region). -/
inductive Outcome where
  | returned (w : World)
  | thrown (w : World)
  | undefined
deriving DecidableEq

/-- The buffers and log an outcome leaves behind, when it leaves any. -/
def Outcome.world? : Outcome → Option World
  | .returned w => some w
  | .thrown w => some w
  | .undefined => none

/-- Number of acquisitions of the source in a log. -/
def acquired (log : List Event) : Nat := log.count .acquire

/-- Number of releases of the source in a log, in any mode. -/
def released (log : List Event) : Nat :=
  (log.filter fun e => match e with
    | .release _ => true
    | _ => false).length

/-- Number of bytes written to the destination in a log. -/
def bytesWritten (log : List Event) : Nat :=
  (log.map fun e => match e with
    | .memcpy n => n
    | _ => 0).sum

/-- Number of calls into the image library in a log. -/
def libraryCalls (log : List Event) : Nat :=
  (log.filter fun e => match e with
    | .cvtColor _ => true
    | .canny _ _ => true
    | _ => false).length

/-! ## The entry point -/

/-- The function `Java_com_example_edgeviewer_NativeBridge_processFrame` of
`native-lib.cpp`. A null reference is `none`. -/
def Java_com_example_edgeviewer_NativeBridge_processFrame
    (cv : ImgLib) (env : JNIEnv) (frameData : Option (List Byte))
    (width height : Int) (outputBuffer : Option ByteBuffer) : Outcome :=
  -- Validate input
  if frameData.isNone || outputBuffer.isNone || decide (width ≤ 0) || decide (height ≤ 0) then
    .returned ⟨frameData, outputBuffer, []⟩
  else
    match frameData, outputBuffer with
    | some array, some buf =>
      -- Get camera NV21 data
      match GetByteArrayElements env array with
      | none => .returned ⟨frameData, outputBuffer, [.acquireFailed]⟩
      | some data =>
        -- Create YUV Mat (NV21: height + height/2)
        let yuv : Mat := ⟨yuvRows height, width, 1,
          viewBytes data env.memoryAfter (yuvRows height * width).toNat⟩
        -- Convert formats
        match cv.cvtColor yuv .COLOR_YUV2RGBA_NV21 with
        | none =>
          .thrown ⟨frameData, outputBuffer, [.acquire, .cvtColor .COLOR_YUV2RGBA_NV21]⟩
        | some rgba =>
          match cv.cvtColor rgba .COLOR_RGBA2GRAY with
          | none =>
            .thrown ⟨frameData, outputBuffer,
              [.acquire, .cvtColor .COLOR_YUV2RGBA_NV21, .cvtColor .COLOR_RGBA2GRAY]⟩
          | some gray =>
            -- Canny edge detection
            match cv.Canny gray 80 150 with
            | none =>
              .thrown ⟨frameData, outputBuffer,
                [.acquire, .cvtColor .COLOR_YUV2RGBA_NV21, .cvtColor .COLOR_RGBA2GRAY,
                  .canny 80 150]⟩
            | some edges =>
              -- Get output buffer as uchar*
              match GetDirectBufferAddress buf with
              | none =>
                -- Release camera frame buffer
                .returned ⟨some (ReleaseByteArrayElements array data .JNI_ABORT), outputBuffer,
                  [.acquire, .cvtColor .COLOR_YUV2RGBA_NV21, .cvtColor .COLOR_RGBA2GRAY,
                    .canny 80 150, .release .JNI_ABORT]⟩
              | some out =>
                match memcpy out edges.data (copyLen width height) with
                | none => .undefined
                | some out' =>
                  -- Release camera frame buffer
                  .returned ⟨some (ReleaseByteArrayElements array data .JNI_ABORT),
                    some { buf with bytes := out' },
                    [.acquire, .cvtColor .COLOR_YUV2RGBA_NV21, .cvtColor .COLOR_RGBA2GRAY,
                      .canny 80 150, .memcpy (copyLen width height), .release .JNI_ABORT]⟩
    | _, _ => .returned ⟨frameData, outputBuffer, []⟩

/-! ## The specification's reading of the pipeline -/

/-- The source viewed as a single-channel matrix of `height + height/2` rows by
`width` columns (the row count as line 22 computes it): one byte per entry,
taken from the source and, where the source ends early, from the memory
behind it. -/
def sourceView (env : JNIEnv) (source : List Byte) (width height : Int) : Mat :=
  ⟨yuvRows height, width, 1,
    viewBytes source env.memoryAfter (yuvRows height * width).toNat⟩

/-- The edge map `Canny(RGBA2GRAY(NV21toRGBA(V)), 80, 150)` of a view `V`,
when all three steps complete. -/
def edgeMap (cv : ImgLib) (v : Mat) : Option Mat :=
  (cv.cvtColor v .COLOR_YUV2RGBA_NV21).bind fun rgba =>
    (cv.cvtColor rgba .COLOR_RGBA2GRAY).bind fun gray =>
      cv.Canny gray 80 150

/-! ## Size rules of the image library, and a small library that obeys them -/

/-- A small image library on which the model can be run. It obeys the size
rules above: it raises on an NV21 frame whose shape the real converter rejects
(odd column count, or a row count that is not a multiple of 3). Its arithmetic
is a placeholder: the colour frame repeats the luma byte, the gray frame reads
it back, and the edge detector marks the pixels at or above the high
threshold. -/
def stubLib : ImgLib where
  cvtColor m code :=
    match code with
    | .COLOR_YUV2RGBA_NV21 =>
      if m.channels = 1 ∧ 0 < m.rows ∧ 0 < m.cols ∧ m.cols % 2 = 0 ∧ m.rows % 3 = 0 then
        some ⟨m.rows * 2 / 3, m.cols, 4,
          (List.range (4 * (m.rows * 2 / 3 * m.cols).toNat)).map fun j =>
            if j % 4 = 3 then 255 else m.data.getD (j / 4) 0⟩
      else none
    | .COLOR_RGBA2GRAY =>
      if m.channels = 4 then
        some ⟨m.rows, m.cols, 1,
          (List.range (m.rows * m.cols).toNat).map fun i => m.data.getD (4 * i) 0⟩
      else none
  Canny m _low high :=
    if m.channels = 1 then
      some ⟨m.rows, m.cols, 1,
        (List.range (m.rows * m.cols).toNat).map fun i =>
          if high ≤ m.data.getD i 0 then 255 else 0⟩
    else none

/-! ## Arithmetic of the two size computations -/

theorem toSizeT_of_nonneg (x : Int) (h0 : 0 ≤ x) (h1 : x ≤ jintMax) :
    toSizeT x = x.toNat := by
  unfold toSizeT
  unfold jintMax at h1
  rw [Int.emod_eq_of_lt h0 (by omega)]

theorem copyLen_exact (width height : Int) (hw : 0 < width) (hw' : width ≤ jintMax)
    (hh : 0 < height) (hh' : height ≤ jintMax) :
    copyLen width height = (width * height).toNat := by
  unfold copyLen
  rw [toSizeT_of_nonneg width hw.le hw', toSizeT_of_nonneg height hh.le hh']
  unfold jintMax at hw' hh'
  lift width to ℕ using hw.le
  lift height to ℕ using hh.le
  have e : ((width : Int) * (height : Int)).toNat = width * height := by
    rw [← Nat.cast_mul]; exact Int.toNat_natCast _
  simp only [Int.toNat_natCast, e]
  apply Nat.mod_eq_of_lt
  have h1 : width ≤ 2 ^ 31 := by omega
  have h2 : height ≤ 2 ^ 31 := by omega
  calc width * height ≤ 2 ^ 31 * 2 ^ 31 := Nat.mul_le_mul h1 h2
    _ < 2 ^ 64 := by norm_num

theorem yuvRows_exact (height : Int) (hh : 0 < height) (hb : height ≤ 1431655765) :
    yuvRows height = height + height / 2 := by
  unfold yuvRows wrapInt32
  rw [Int.tdiv_eq_ediv hh.le (by norm_num)]
  norm_num
  omega

theorem yuvRows_wraps (height : Int) (hh : 1431655765 < height) (hb : height ≤ jintMax) :
    yuvRows height = height + height / 2 - 2 ^ 32 := by
  unfold yuvRows wrapInt32
  unfold jintMax at hb
  rw [Int.tdiv_eq_ediv (by omega) (by norm_num)]
  norm_num
  omega


/-! ## The copy -/

theorem splice_facts (dst src : List Byte) (n : Nat) (hs : n ≤ src.length)
    (hd : n ≤ dst.length) :
    (src.take n ++ dst.drop n).length = dst.length ∧
      (src.take n ++ dst.drop n).drop n = dst.drop n ∧
      (src.take n ++ dst.drop n).take n = src.take n := by
  have hl : (src.take n).length = n := by simp [List.length_take, hs]
  refine ⟨?_, ?_, ?_⟩
  · simp only [List.length_append, hl, List.length_drop]
    omega
  · rw [List.drop_append_of_le_length (by omega)]
    rw [List.drop_of_length_le (by omega)]
    simp
  · rw [List.take_append_of_le_length (by omega)]
    rw [List.take_take]
    simp

/-! ## The view of the source -/

theorem viewBytes_length (elems : List Byte) (after : Nat → Byte) (n : Nat) :
    (viewBytes elems after n).length = n := by
  simp [viewBytes]

theorem viewBytes_within (elems : List Byte) (after : Nat → Byte) (n : Nat)
    (h : n ≤ elems.length) : viewBytes elems after n = elems.take n := by
  apply List.ext_getElem
  · simp [viewBytes, List.length_take, h]
  · intro i h1 h2
    have hi : i < n := by simpa [viewBytes] using h1
    have hi' : i < elems.length := by omega
    simp [viewBytes, List.getElem_take, List.getElem?_eq_getElem hi']

theorem yuvRows_view_le (width height : Int) (hw : 0 < width) (hh : 0 < height)
    (hh' : height ≤ jintMax) :
    (yuvRows height * width).toNat ≤ (width * (height + height / 2)).toNat := by
  by_cases hb : height ≤ 1431655765
  · rw [yuvRows_exact height hh hb, mul_comm]
  · have hneg : yuvRows height < 0 := by
      rw [yuvRows_wraps height (not_le.mp hb) hh']
      unfold jintMax at hh'
      norm_num
      omega
    have : yuvRows height * width ≤ 0 := by nlinarith
    rw [Int.toNat_eq_zero.mpr this]
    exact Nat.zero_le _

theorem sourceView_within (env₁ env₂ : JNIEnv) (array : List Byte) (width height : Int)
    (hw : 0 < width) (hh : 0 < height) (hh' : height ≤ jintMax)
    (hlen : (width * (height + height / 2)).toNat ≤ array.length) :
    sourceView env₁ array width height = sourceView env₂ array width height := by
  have h := le_trans (yuvRows_view_le width height hw hh hh') hlen
  unfold sourceView
  rw [viewBytes_within array env₁.memoryAfter _ h,
    viewBytes_within array env₂.memoryAfter _ h]

/-! ## The paths through `processFrame` -/

theorem processFrame_success (cv : ImgLib) (env : JNIEnv) (array : List Byte)
    (width height : Int) (buf : ByteBuffer) (e : Mat)
    (hw : 0 < width) (hh : 0 < height)
    (hsrc : env.elementsAvailable = true) (hdst : buf.isDirect = true)
    (he : edgeMap cv (sourceView env array width height) = some e)
    (hle : copyLen width height ≤ e.data.length)
    (hcap : copyLen width height ≤ buf.bytes.length) :
    Java_com_example_edgeviewer_NativeBridge_processFrame cv env (some array) width height
        (some buf) =
      .returned ⟨some array,
        some ⟨buf.isDirect,
          e.data.take (copyLen width height) ++ buf.bytes.drop (copyLen width height)⟩,
        [.acquire, .cvtColor .COLOR_YUV2RGBA_NV21, .cvtColor .COLOR_RGBA2GRAY,
          .canny 80 150, .memcpy (copyLen width height), .release .JNI_ABORT]⟩ := by
  unfold edgeMap sourceView at he
  cases h1 : cv.cvtColor ⟨yuvRows height, width, 1,
      viewBytes array env.memoryAfter (yuvRows height * width).toNat⟩
      .COLOR_YUV2RGBA_NV21 with
  | none => simp [h1] at he
  | some rgba =>
    cases h2 : cv.cvtColor rgba .COLOR_RGBA2GRAY with
    | none => simp [h1, h2] at he
    | some gray =>
      simp only [h1, h2, Option.some_bind] at he
      simp [Java_com_example_edgeviewer_NativeBridge_processFrame, GetByteArrayElements,
        GetDirectBufferAddress, ReleaseByteArrayElements, memcpy, hsrc, hdst, h1, h2, he,
        hle, hcap, not_le.mpr hw, not_le.mpr hh]

theorem processFrame_invalid (cv : ImgLib) (env : JNIEnv) (frameData : Option (List Byte))
    (width height : Int) (outputBuffer : Option ByteBuffer)
    (h : frameData = none ∨ outputBuffer = none ∨ width ≤ 0 ∨ height ≤ 0) :
    Java_com_example_edgeviewer_NativeBridge_processFrame cv env frameData width height
        outputBuffer = .returned ⟨frameData, outputBuffer, []⟩ := by
  unfold Java_com_example_edgeviewer_NativeBridge_processFrame
  rw [if_pos]
  rcases h with h | h | h | h <;> simp [h]

theorem processFrame_valid (cv : ImgLib) (env : JNIEnv) (array : List Byte)
    (width height : Int) (buf : ByteBuffer) (hw : 0 < width) (hh : 0 < height) :
    (env.elementsAvailable = false ∧
      Java_com_example_edgeviewer_NativeBridge_processFrame cv env (some array) width height
        (some buf) = .returned ⟨some array, some buf, [.acquireFailed]⟩) ∨
    (env.elementsAvailable = true ∧ edgeMap cv (sourceView env array width height) = none ∧
      ∃ log, Java_com_example_edgeviewer_NativeBridge_processFrame cv env (some array) width
          height (some buf) = .thrown ⟨some array, some buf, log⟩ ∧
        acquired log = 1 ∧ released log = 0 ∧ bytesWritten log = 0) ∨
    (env.elementsAvailable = true ∧
      ∃ e, edgeMap cv (sourceView env array width height) = some e ∧
        ((buf.isDirect = false ∧
            Java_com_example_edgeviewer_NativeBridge_processFrame cv env (some array) width
              height (some buf) =
            .returned ⟨some array, some buf,
              [.acquire, .cvtColor .COLOR_YUV2RGBA_NV21, .cvtColor .COLOR_RGBA2GRAY,
                .canny 80 150, .release .JNI_ABORT]⟩) ∨
          (buf.isDirect = true ∧
            ¬ (copyLen width height ≤ e.data.length ∧
              copyLen width height ≤ buf.bytes.length) ∧
            Java_com_example_edgeviewer_NativeBridge_processFrame cv env (some array) width
              height (some buf) = .undefined) ∨
          (buf.isDirect = true ∧ copyLen width height ≤ e.data.length ∧
            copyLen width height ≤ buf.bytes.length ∧
            Java_com_example_edgeviewer_NativeBridge_processFrame cv env (some array) width
              height (some buf) =
            .returned ⟨some array,
              some ⟨buf.isDirect,
                e.data.take (copyLen width height) ++
                  buf.bytes.drop (copyLen width height)⟩,
              [.acquire, .cvtColor .COLOR_YUV2RGBA_NV21, .cvtColor .COLOR_RGBA2GRAY,
                .canny 80 150, .memcpy (copyLen width height), .release .JNI_ABORT]⟩))) := by
  have hw' : ¬ width ≤ 0 := not_le.mpr hw
  have hh' : ¬ height ≤ 0 := not_le.mpr hh
  cases hsrc : env.elementsAvailable with
  | false =>
    left
    simp [Java_com_example_edgeviewer_NativeBridge_processFrame, GetByteArrayElements, hsrc,
      hw', hh']
  | true =>
    right
    cases h1 : cv.cvtColor ⟨yuvRows height, width, 1,
        viewBytes array env.memoryAfter (yuvRows height * width).toNat⟩
        .COLOR_YUV2RGBA_NV21 with
    | none =>
      left
      simp [Java_com_example_edgeviewer_NativeBridge_processFrame, GetByteArrayElements, hsrc,
        hw', hh', h1, edgeMap, sourceView, acquired, released, bytesWritten]
    | some rgba =>
      cases h2 : cv.cvtColor rgba .COLOR_RGBA2GRAY with
      | none =>
        left
        simp [Java_com_example_edgeviewer_NativeBridge_processFrame, GetByteArrayElements,
          hsrc, hw', hh', h1, h2, edgeMap, sourceView, acquired, released, bytesWritten]
      | some gray =>
        cases h3 : cv.Canny gray 80 150 with
        | none =>
          left
          simp [Java_com_example_edgeviewer_NativeBridge_processFrame, GetByteArrayElements,
            hsrc, hw', hh', h1, h2, h3, edgeMap, sourceView, acquired, released, bytesWritten]
        | some edges =>
          right
          refine ⟨rfl, edges, by simp [edgeMap, sourceView, h1, h2, h3], ?_⟩
          cases hdst : buf.isDirect with
          | false =>
            left
            simp [Java_com_example_edgeviewer_NativeBridge_processFrame, GetByteArrayElements,
              GetDirectBufferAddress, ReleaseByteArrayElements, hsrc, hdst, hw', hh', h1, h2,
              h3]
          | true =>
            right
            by_cases hb : copyLen width height ≤ edges.data.length ∧
                copyLen width height ≤ buf.bytes.length
            · right
              simp [Java_com_example_edgeviewer_NativeBridge_processFrame,
                GetByteArrayElements, GetDirectBufferAddress, ReleaseByteArrayElements, memcpy,
                hsrc, hdst, hw', hh', h1, h2, h3, hb]
            · left
              simp [Java_com_example_edgeviewer_NativeBridge_processFrame,
                GetByteArrayElements, GetDirectBufferAddress, memcpy, hsrc, hdst, hw', hh',
                h1, h2, h3, hb]

theorem processFrame_world (cv : ImgLib) (env : JNIEnv) (frameData : Option (List Byte))
    (width height : Int) (outputBuffer : Option ByteBuffer) (world : World)
    (h : (Java_com_example_edgeviewer_NativeBridge_processFrame cv env frameData width
      height outputBuffer).world? = some world) :
    world.frameData = frameData ∧
      ∀ buf, outputBuffer = some buf →
        ∃ out, world.outputBuffer = some out ∧ out.isDirect = buf.isDirect ∧
          out.bytes.length = buf.bytes.length ∧
          out.bytes.drop (copyLen width height) = buf.bytes.drop (copyLen width height) := by
  by_cases hv : frameData = none ∨ outputBuffer = none ∨ width ≤ 0 ∨ height ≤ 0
  · rw [processFrame_invalid cv env frameData width height outputBuffer hv] at h
    simp only [Outcome.world?, Option.some.injEq] at h
    subst h
    exact ⟨rfl, fun buf hb => ⟨buf, hb, rfl, rfl, rfl⟩⟩
  · simp only [not_or, not_le] at hv
    obtain ⟨hf, ho, hw, hh⟩ := hv
    obtain ⟨array, rfl⟩ := Option.ne_none_iff_exists'.mp hf
    obtain ⟨buf, rfl⟩ := Option.ne_none_iff_exists'.mp ho
    rcases processFrame_valid cv env array width height buf hw hh with
      ⟨-, hr⟩ | ⟨-, -, log, hr, -⟩ | ⟨-, e, -, ⟨-, hr⟩ | ⟨-, -, hr⟩ | ⟨-, hs, hd, hr⟩⟩
    all_goals rw [hr] at h
    all_goals simp only [Outcome.world?, Option.some.injEq] at h
    · subst h
      exact ⟨rfl, fun b hb => ⟨b, hb, rfl, rfl, rfl⟩⟩
    · subst h
      exact ⟨rfl, fun b hb => ⟨b, hb, rfl, rfl, rfl⟩⟩
    · subst h
      exact ⟨rfl, fun b hb => ⟨b, hb, rfl, rfl, rfl⟩⟩
    · cases h
    · subst h
      refine ⟨rfl, fun b hb => ?_⟩
      simp only [Option.some.injEq] at hb
      subst hb
      obtain ⟨h1, h2, -⟩ := splice_facts buf.bytes e.data _ hs hd
      exact ⟨_, rfl, rfl, h1, h2⟩

theorem processFrame_undefined (cv : ImgLib) (env : JNIEnv) (frameData : Option (List Byte))
    (width height : Int) (outputBuffer : Option ByteBuffer)
    (h : (Java_com_example_edgeviewer_NativeBridge_processFrame cv env frameData width
      height outputBuffer).world? = none) :
    ∃ array buf e, frameData = some array ∧ outputBuffer = some buf ∧
      edgeMap cv (sourceView env array width height) = some e ∧
      ¬ (copyLen width height ≤ e.data.length ∧ copyLen width height ≤ buf.bytes.length) := by
  by_cases hv : frameData = none ∨ outputBuffer = none ∨ width ≤ 0 ∨ height ≤ 0
  · rw [processFrame_invalid cv env frameData width height outputBuffer hv] at h
    cases h
  · simp only [not_or, not_le] at hv
    obtain ⟨hf, ho, hw, hh⟩ := hv
    obtain ⟨array, rfl⟩ := Option.ne_none_iff_exists'.mp hf
    obtain ⟨buf, rfl⟩ := Option.ne_none_iff_exists'.mp ho
    rcases processFrame_valid cv env array width height buf hw hh with
      ⟨-, hr⟩ | ⟨-, -, log, hr, -⟩ | ⟨-, e, he, ⟨-, hr⟩ | ⟨-, hb, -⟩ | ⟨-, -, -, hr⟩⟩
    · rw [hr] at h; cases h
    · rw [hr] at h; cases h
    · rw [hr] at h; cases h
    · exact ⟨array, buf, e, rfl, rfl, he, hb⟩
    · rw [hr] at h; cases h

/-- Every call that ends by `return` has released the source as often as
it acquired it, at most once. -/
theorem processFrame_returned_balanced (cv : ImgLib) (env : JNIEnv)
    (frameData : Option (List Byte)) (width height : Int) (outputBuffer : Option ByteBuffer)
    (world : World)
    (h : Java_com_example_edgeviewer_NativeBridge_processFrame cv env frameData width
      height outputBuffer = .returned world) :
    acquired world.log = released world.log ∧ acquired world.log ≤ 1 := by
  by_cases hv : frameData = none ∨ outputBuffer = none ∨ width ≤ 0 ∨ height ≤ 0
  · rw [processFrame_invalid cv env frameData width height outputBuffer hv] at h
    simp only [Outcome.returned.injEq] at h
    subst h
    simp [acquired, released]
  · simp only [not_or, not_le] at hv
    obtain ⟨hf, ho, hw, hh⟩ := hv
    obtain ⟨array, rfl⟩ := Option.ne_none_iff_exists'.mp hf
    obtain ⟨buf, rfl⟩ := Option.ne_none_iff_exists'.mp ho
    rcases processFrame_valid cv env array width height buf hw hh with
      ⟨-, hr⟩ | ⟨-, -, log, hr, -⟩ | ⟨-, e, he, ⟨-, hr⟩ | ⟨-, -, hr⟩ | ⟨-, -, -, hr⟩⟩
    all_goals rw [hr] at h
    all_goals first
      | cases h; done
      | (simp only [Outcome.returned.injEq] at h; subst h; simp [acquired, released])

/-- Every call that a raise of the image library ends holds the source: one
acquisition, no release, and nothing written. -/
theorem processFrame_thrown_holds_source (cv : ImgLib) (env : JNIEnv)
    (frameData : Option (List Byte)) (width height : Int) (outputBuffer : Option ByteBuffer)
    (world : World)
    (h : Java_com_example_edgeviewer_NativeBridge_processFrame cv env frameData width
      height outputBuffer = .thrown world) :
    acquired world.log = 1 ∧ released world.log = 0 ∧ bytesWritten world.log = 0 := by
  by_cases hv : frameData = none ∨ outputBuffer = none ∨ width ≤ 0 ∨ height ≤ 0
  · rw [processFrame_invalid cv env frameData width height outputBuffer hv] at h
    cases h
  · simp only [not_or, not_le] at hv
    obtain ⟨hf, ho, hw, hh⟩ := hv
    obtain ⟨array, rfl⟩ := Option.ne_none_iff_exists'.mp hf
    obtain ⟨buf, rfl⟩ := Option.ne_none_iff_exists'.mp ho
    rcases processFrame_valid cv env array width height buf hw hh with
      ⟨-, hr⟩ | ⟨-, -, log, hr, h1, h2, h3⟩ | ⟨-, e, he, ⟨-, hr⟩ | ⟨-, -, hr⟩ | ⟨-, -, -, hr⟩⟩
    all_goals rw [hr] at h
    all_goals first
      | cases h; done
      | (simp only [Outcome.thrown.injEq] at h; subst h; exact ⟨h1, h2, h3⟩)

/-! ## Contract of the entry point -/

/-- C1. When validation passes, the source elements and the destination
address are obtained and the three library steps complete on the source view,
the call returns and the first `width*height` bytes of the destination are the
first `width*height` bytes of `Canny(RGBA2GRAY(NV21toRGBA(V)), 80, 150)`; the
thresholds are the literals 80 and 150 whatever the input. -/
theorem processFrame_copies_edge_map (cv : ImgLib) (env : JNIEnv) (array : List Byte)
    (width height : Int) (buf : ByteBuffer) (e : Mat)
    (hw : 0 < width) (hw' : width ≤ jintMax) (hh : 0 < height) (hh' : height ≤ jintMax)
    (hsrc : env.elementsAvailable = true) (hdst : buf.isDirect = true)
    (he : edgeMap cv (sourceView env array width height) = some e)
    (hle : (width * height).toNat ≤ e.data.length)
    (hcap : (width * height).toNat ≤ buf.bytes.length) :
    ∃ world out,
      Java_com_example_edgeviewer_NativeBridge_processFrame cv env (some array) width height
        (some buf) = .returned world ∧
      world.outputBuffer = some out ∧
      out.bytes.take (width * height).toNat = e.data.take (width * height).toNat := by
  rw [← copyLen_exact width height hw hw' hh hh'] at hle hcap ⊢
  refine ⟨_, _, processFrame_success cv env array width height buf e hw hh hsrc hdst he hle hcap,
    rfl, ?_⟩
  exact (splice_facts buf.bytes e.data _ hle hcap).2.2

theorem processFrame_copies_edge_map_witness :
    ∃ world out,
      Java_com_example_edgeviewer_NativeBridge_processFrame stubLib ⟨true, fun _ => 0⟩
        (some [200, 10, 10, 200, 128, 128]) 2 2 (some ⟨true, [7, 7, 7, 7, 9]⟩) =
          .returned world ∧
      world.outputBuffer = some out ∧
      out.bytes.take ((2 : Int) * 2).toNat =
        (Mat.mk 2 2 1 [255, 0, 0, 255]).data.take ((2 : Int) * 2).toNat :=
  processFrame_copies_edge_map stubLib ⟨true, fun _ => 0⟩ [200, 10, 10, 200, 128, 128] 2 2
    ⟨true, [7, 7, 7, 7, 9]⟩ ⟨2, 2, 1, [255, 0, 0, 255]⟩
    (by decide) (by decide) (by decide) (by decide) rfl rfl (by decide) (by decide)
    (by decide)

/-- C2. A call with a null source, a null destination, `width <= 0` or
`height <= 0` returns at once: it makes no call at all (no acquisition, no
conversion, no edge step, no copy) and both buffers are as they were. -/
theorem processFrame_validation_noop (cv : ImgLib) (env : JNIEnv)
    (frameData : Option (List Byte)) (width height : Int) (outputBuffer : Option ByteBuffer)
    (h : frameData = none ∨ outputBuffer = none ∨ width ≤ 0 ∨ height ≤ 0) :
    ∃ world,
      Java_com_example_edgeviewer_NativeBridge_processFrame cv env frameData width height
        outputBuffer = .returned world ∧
      world.frameData = frameData ∧ world.outputBuffer = outputBuffer ∧ world.log = [] ∧
      acquired world.log = 0 ∧ libraryCalls world.log = 0 ∧ bytesWritten world.log = 0 :=
  ⟨_, processFrame_invalid cv env frameData width height outputBuffer h, rfl, rfl, rfl, rfl,
    rfl, rfl⟩

theorem processFrame_validation_noop_witness :
    ∃ world,
      Java_com_example_edgeviewer_NativeBridge_processFrame stubLib ⟨true, fun _ => 0⟩
        (some [200, 10, 10, 200, 128, 128]) 0 2 (some ⟨true, [7, 7, 7, 7, 9]⟩) =
          .returned world ∧
      world.frameData = some [200, 10, 10, 200, 128, 128] ∧
      world.outputBuffer = some ⟨true, [7, 7, 7, 7, 9]⟩ ∧ world.log = [] ∧
      acquired world.log = 0 ∧ libraryCalls world.log = 0 ∧ bytesWritten world.log = 0 :=
  processFrame_validation_noop stubLib ⟨true, fun _ => 0⟩
    (some [200, 10, 10, 200, 128, 128]) 0 2 (some ⟨true, [7, 7, 7, 7, 9]⟩)
    (Or.inr (Or.inr (Or.inl (by decide))))

/-- C3. With `width > 0` and `height > 0`, whatever the source holds and however
the call ends, the destination keeps its length and every byte at an index
`>= width*height`. The one way a call leaves no final state is a copy that
does not fit the edge map or the destination. -/
theorem processFrame_tail_untouched (cv : ImgLib) (env : JNIEnv)
    (frameData : Option (List Byte)) (width height : Int) (buf : ByteBuffer)
    (hw : 0 < width) (hw' : width ≤ jintMax) (hh : 0 < height) (hh' : height ≤ jintMax) :
    (∀ world,
      (Java_com_example_edgeviewer_NativeBridge_processFrame cv env frameData width height
        (some buf)).world? = some world →
      ∃ out, world.outputBuffer = some out ∧ out.bytes.length = buf.bytes.length ∧
        ∀ i, (width * height).toNat ≤ i → out.bytes[i]? = buf.bytes[i]?) ∧
    ((Java_com_example_edgeviewer_NativeBridge_processFrame cv env frameData width height
        (some buf)).world? = none →
      ∃ array e, frameData = some array ∧
        edgeMap cv (sourceView env array width height) = some e ∧
        ¬ ((width * height).toNat ≤ e.data.length ∧
          (width * height).toNat ≤ buf.bytes.length)) := by
  rw [← copyLen_exact width height hw hw' hh hh']
  constructor
  · intro world h
    obtain ⟨-, hb⟩ := processFrame_world cv env frameData width height (some buf) world h
    obtain ⟨out, ho, -, hlen, hdrop⟩ := hb buf rfl
    refine ⟨out, ho, hlen, fun i hi => ?_⟩
    obtain ⟨k, rfl⟩ := Nat.exists_eq_add_of_le hi
    rw [← List.getElem?_drop, ← List.getElem?_drop, hdrop]
  · intro h
    obtain ⟨array, b, e, hf, hb, he, hn⟩ :=
      processFrame_undefined cv env frameData width height (some buf) h
    simp only [Option.some.injEq] at hb
    subst hb
    exact ⟨array, e, hf, he, hn⟩

theorem processFrame_tail_untouched_witness :
    (∀ world,
      (Java_com_example_edgeviewer_NativeBridge_processFrame stubLib ⟨true, fun _ => 0⟩
        (some [200, 10, 10, 200, 128, 128]) 2 2 (some ⟨true, [7, 7, 7, 7, 9]⟩)).world? =
          some world →
      ∃ out, world.outputBuffer = some out ∧
        out.bytes.length = (ByteBuffer.mk true [7, 7, 7, 7, 9]).bytes.length ∧
        ∀ i, ((2 : Int) * 2).toNat ≤ i →
          out.bytes[i]? = (ByteBuffer.mk true [7, 7, 7, 7, 9]).bytes[i]?) ∧
    ((Java_com_example_edgeviewer_NativeBridge_processFrame stubLib ⟨true, fun _ => 0⟩
        (some [200, 10, 10, 200, 128, 128]) 2 2 (some ⟨true, [7, 7, 7, 7, 9]⟩)).world? =
          none →
      ∃ array e, some [200, 10, 10, 200, 128, 128] = some array ∧
        edgeMap stubLib (sourceView ⟨true, fun _ => 0⟩ array 2 2) = some e ∧
        ¬ (((2 : Int) * 2).toNat ≤ e.data.length ∧
          ((2 : Int) * 2).toNat ≤ (ByteBuffer.mk true [7, 7, 7, 7, 9]).bytes.length)) :=
  processFrame_tail_untouched stubLib ⟨true, fun _ => 0⟩ (some [200, 10, 10, 200, 128, 128]) 2 2
    ⟨true, [7, 7, 7, 7, 9]⟩ (by decide) (by decide) (by decide) (by decide)

/-- C4, as the code has it. For a call that passes validation: when the source
elements and the destination address are both obtained and the library steps
complete with an edge map that the copy fits, the call returns having written
exactly `width*height` bytes; when the source elements are not obtained, or
the steps complete and the destination has no direct address, the call returns
having written zero bytes. -/
theorem processFrame_bytes_written (cv : ImgLib) (env : JNIEnv) (array : List Byte)
    (width height : Int) (buf : ByteBuffer)
    (hw : 0 < width) (hw' : width ≤ jintMax) (hh : 0 < height) (hh' : height ≤ jintMax) :
    (∀ e, env.elementsAvailable = true → buf.isDirect = true →
      edgeMap cv (sourceView env array width height) = some e →
      (width * height).toNat ≤ e.data.length → (width * height).toNat ≤ buf.bytes.length →
      ∃ world,
        Java_com_example_edgeviewer_NativeBridge_processFrame cv env (some array) width height
          (some buf) = .returned world ∧
        bytesWritten world.log = (width * height).toNat) ∧
    (env.elementsAvailable = false →
      ∃ world,
        Java_com_example_edgeviewer_NativeBridge_processFrame cv env (some array) width height
          (some buf) = .returned world ∧
        bytesWritten world.log = 0) ∧
    (∀ e, env.elementsAvailable = true → buf.isDirect = false →
      edgeMap cv (sourceView env array width height) = some e →
      ∃ world,
        Java_com_example_edgeviewer_NativeBridge_processFrame cv env (some array) width height
          (some buf) = .returned world ∧
        bytesWritten world.log = 0) := by
  rw [← copyLen_exact width height hw hw' hh hh']
  refine ⟨?_, ?_, ?_⟩
  · intro e hsrc hdst he hle hcap
    exact ⟨_, processFrame_success cv env array width height buf e hw hh hsrc hdst he hle hcap,
      by simp [bytesWritten]⟩
  · intro hsrc
    rcases processFrame_valid cv env array width height buf hw hh with
      ⟨-, hr⟩ | ⟨hs, -⟩ | ⟨hs, -⟩
    · exact ⟨_, hr, by simp [bytesWritten]⟩
    · rw [hsrc] at hs; cases hs
    · rw [hsrc] at hs; cases hs
  · intro e hsrc hdst he
    rcases processFrame_valid cv env array width height buf hw hh with
      ⟨hs, -⟩ | ⟨-, hn, -⟩ | ⟨-, e', -, ⟨-, hr⟩ | ⟨hd, -⟩ | ⟨hd, -⟩⟩
    · rw [hsrc] at hs; cases hs
    · rw [he] at hn; cases hn
    · exact ⟨_, hr, by simp [bytesWritten]⟩
    · rw [hdst] at hd; cases hd
    · rw [hdst] at hd; cases hd

theorem processFrame_bytes_written_witness :
    (∃ world,
      Java_com_example_edgeviewer_NativeBridge_processFrame stubLib ⟨true, fun _ => 0⟩
        (some [200, 10, 10, 200, 128, 128]) 2 2 (some ⟨true, [7, 7, 7, 7, 9]⟩) =
          .returned world ∧
      bytesWritten world.log = ((2 : Int) * 2).toNat) ∧
    ((2 : Int) * 2).toNat = 4 :=
  ⟨(processFrame_bytes_written stubLib ⟨true, fun _ => 0⟩ [200, 10, 10, 200, 128, 128] 2 2
      ⟨true, [7, 7, 7, 7, 9]⟩ (by decide) (by decide) (by decide) (by decide)).1
      ⟨2, 2, 1, [255, 0, 0, 255]⟩ rfl rfl (by decide) (by decide) (by decide),
    by decide⟩

/-- C4 fails as stated: a 2x2 frame with a destination that is not a direct
buffer passes validation, and so does one whose elements the VM does not hand
out; both calls return with zero bytes written, not four. -/
theorem processFrame_valid_call_writes_nothing :
    Java_com_example_edgeviewer_NativeBridge_processFrame stubLib ⟨true, fun _ => 0⟩
        (some [200, 10, 10, 200, 128, 128]) 2 2 (some ⟨false, [7, 7, 7, 7]⟩) =
      .returned ⟨some [200, 10, 10, 200, 128, 128], some ⟨false, [7, 7, 7, 7]⟩,
        [.acquire, .cvtColor .COLOR_YUV2RGBA_NV21, .cvtColor .COLOR_RGBA2GRAY, .canny 80 150,
          .release .JNI_ABORT]⟩ ∧
    bytesWritten [.acquire, .cvtColor .COLOR_YUV2RGBA_NV21, .cvtColor .COLOR_RGBA2GRAY,
      .canny 80 150, .release .JNI_ABORT] = 0 ∧
    Java_com_example_edgeviewer_NativeBridge_processFrame stubLib ⟨false, fun _ => 0⟩
        (some [200, 10, 10, 200, 128, 128]) 2 2 (some ⟨true, [7, 7, 7, 7]⟩) =
      .returned ⟨some [200, 10, 10, 200, 128, 128], some ⟨true, [7, 7, 7, 7]⟩,
        [.acquireFailed]⟩ ∧
    bytesWritten [.acquireFailed] = 0 ∧
    (0 : Nat) ≠ ((2 : Int) * 2).toNat := by
  decide

/-- C7 fails in the code. A 2x3 frame passes validation, the source is acquired,
and the NV21 step raises on the 4-row view: the call ends with one acquisition
and no release, so the source is still held. -/
theorem processFrame_raise_skips_release :
    Java_com_example_edgeviewer_NativeBridge_processFrame stubLib ⟨true, fun _ => 0⟩
        (some [0, 0, 0, 0, 0, 0, 128, 128]) 2 3 (some ⟨true, [7, 7, 7, 7, 7, 7]⟩) =
      .thrown ⟨some [0, 0, 0, 0, 0, 0, 128, 128], some ⟨true, [7, 7, 7, 7, 7, 7]⟩,
        [.acquire, .cvtColor .COLOR_YUV2RGBA_NV21]⟩ ∧
    acquired [.acquire, .cvtColor .COLOR_YUV2RGBA_NV21] = 1 ∧
    released [.acquire, .cvtColor .COLOR_YUV2RGBA_NV21] = 0 := by
  decide

/-- C8. However a call ends, valid or not, the source array holds afterwards what
it held before: the pipeline only reads it and the release is in `JNI_ABORT`
mode. The one way a call leaves no final state is a copy that does not fit the
edge map or the destination. -/
theorem processFrame_source_unchanged (cv : ImgLib) (env : JNIEnv)
    (frameData : Option (List Byte)) (width height : Int)
    (outputBuffer : Option ByteBuffer) :
    (∀ world,
      (Java_com_example_edgeviewer_NativeBridge_processFrame cv env frameData width height
        outputBuffer).world? = some world →
      world.frameData = frameData) ∧
    ((Java_com_example_edgeviewer_NativeBridge_processFrame cv env frameData width height
        outputBuffer).world? = none →
      ∃ array buf e, frameData = some array ∧ outputBuffer = some buf ∧
        edgeMap cv (sourceView env array width height) = some e ∧
        ¬ (copyLen width height ≤ e.data.length ∧
          copyLen width height ≤ buf.bytes.length)) :=
  ⟨fun world h => (processFrame_world cv env frameData width height outputBuffer world h).1,
    processFrame_undefined cv env frameData width height outputBuffer⟩

/-- C9, as the code has it. Two calls on the same source content and the same
dimensions, with a source of at least `width*(height + height/2)` bytes, in
which the source elements and the destination address are obtained and the
library steps of the first call complete: both calls return, and the first
`width*height` bytes of the two destinations are equal, whatever the two
destinations held before and whatever lies in memory behind the source. -/
theorem processFrame_deterministic (cv : ImgLib) (env₁ env₂ : JNIEnv) (array : List Byte)
    (width height : Int) (buf₁ buf₂ : ByteBuffer) (e : Mat)
    (hw : 0 < width) (hw' : width ≤ jintMax) (hh : 0 < height) (hh' : height ≤ jintMax)
    (hlen : (width * (height + height / 2)).toNat ≤ array.length)
    (hsrc₁ : env₁.elementsAvailable = true) (hsrc₂ : env₂.elementsAvailable = true)
    (hdst₁ : buf₁.isDirect = true) (hdst₂ : buf₂.isDirect = true)
    (he : edgeMap cv (sourceView env₁ array width height) = some e)
    (hle : (width * height).toNat ≤ e.data.length)
    (hcap₁ : (width * height).toNat ≤ buf₁.bytes.length)
    (hcap₂ : (width * height).toNat ≤ buf₂.bytes.length) :
    ∃ world₁ world₂ out₁ out₂,
      Java_com_example_edgeviewer_NativeBridge_processFrame cv env₁ (some array) width height
        (some buf₁) = .returned world₁ ∧
      Java_com_example_edgeviewer_NativeBridge_processFrame cv env₂ (some array) width height
        (some buf₂) = .returned world₂ ∧
      world₁.outputBuffer = some out₁ ∧ world₂.outputBuffer = some out₂ ∧
      out₁.bytes.take (width * height).toNat = out₂.bytes.take (width * height).toNat := by
  have he₂ : edgeMap cv (sourceView env₂ array width height) = some e := by
    rw [← sourceView_within env₁ env₂ array width height hw hh hh' hlen]
    exact he
  rw [← copyLen_exact width height hw hw' hh hh'] at hle hcap₁ hcap₂ ⊢
  refine ⟨_, _, _, _,
    processFrame_success cv env₁ array width height buf₁ e hw hh hsrc₁ hdst₁ he hle hcap₁,
    processFrame_success cv env₂ array width height buf₂ e hw hh hsrc₂ hdst₂ he₂ hle hcap₂,
    rfl, rfl, ?_⟩
  simp only [(splice_facts buf₁.bytes e.data _ hle hcap₁).2.2,
    (splice_facts buf₂.bytes e.data _ hle hcap₂).2.2]

theorem processFrame_deterministic_witness :
    ∃ world₁ world₂ out₁ out₂,
      Java_com_example_edgeviewer_NativeBridge_processFrame stubLib ⟨true, fun _ => 200⟩
        (some [200, 10, 10, 200, 128, 128]) 2 2 (some ⟨true, [7, 7, 7, 7, 9]⟩) =
          .returned world₁ ∧
      Java_com_example_edgeviewer_NativeBridge_processFrame stubLib ⟨true, fun _ => 0⟩
        (some [200, 10, 10, 200, 128, 128]) 2 2 (some ⟨true, [1, 2, 3, 4]⟩) =
          .returned world₂ ∧
      world₁.outputBuffer = some out₁ ∧ world₂.outputBuffer = some out₂ ∧
      out₁.bytes.take ((2 : Int) * 2).toNat = out₂.bytes.take ((2 : Int) * 2).toNat :=
  processFrame_deterministic stubLib ⟨true, fun _ => 200⟩ ⟨true, fun _ => 0⟩
    [200, 10, 10, 200, 128, 128] 2 2
    ⟨true, [7, 7, 7, 7, 9]⟩ ⟨true, [1, 2, 3, 4]⟩ ⟨2, 2, 1, [255, 0, 0, 255]⟩
    (by decide) (by decide) (by decide) (by decide) (by decide) rfl rfl rfl rfl (by decide)
    (by decide) (by decide) (by decide)

/-- C9 fails as stated. Two calls on the same three-byte source `[200, 10, 10]`
with `width = height = 2` both pass validation, obtain the source and the
destination address, complete every step and return; the view of 3 rows by 2
columns reads three bytes behind the source, and with 200 there in one call
and 0 in the other the fourth byte written is 255 in one destination and 0 in
the other. -/
theorem processFrame_short_source_reads_behind :
    Java_com_example_edgeviewer_NativeBridge_processFrame stubLib ⟨true, fun _ => 200⟩
        (some [200, 10, 10]) 2 2 (some ⟨true, [7, 7, 7, 7]⟩) =
      .returned ⟨some [200, 10, 10], some ⟨true, [255, 0, 0, 255]⟩,
        [.acquire, .cvtColor .COLOR_YUV2RGBA_NV21, .cvtColor .COLOR_RGBA2GRAY, .canny 80 150,
          .memcpy 4, .release .JNI_ABORT]⟩ ∧
    Java_com_example_edgeviewer_NativeBridge_processFrame stubLib ⟨true, fun _ => 0⟩
        (some [200, 10, 10]) 2 2 (some ⟨true, [7, 7, 7, 7]⟩) =
      .returned ⟨some [200, 10, 10], some ⟨true, [255, 0, 0, 0]⟩,
        [.acquire, .cvtColor .COLOR_YUV2RGBA_NV21, .cvtColor .COLOR_RGBA2GRAY, .canny 80 150,
          .memcpy 4, .release .JNI_ABORT]⟩ ∧
    ([255, 0, 0, 255] : List Byte).take ((2 : Int) * 2).toNat ≠
      ([255, 0, 0, 0] : List Byte).take ((2 : Int) * 2).toNat ∧
    [200, 10, 10].length < ((2 : Int) * (2 + 2 / 2)).toNat := by
  decide

/-- C10, as the code has it. For `0 < width, height <= 2^31 - 1` the copy length is
the exact product `width*height`, with no wrap modulo `2^64`. The row count
`height + height/2` is exact, and at most `2^31 - 1`, for
`height <= 1431655765`; above that the 32-bit sum wraps and is `2^32` less
than the mathematical value. -/
theorem size_computations (width height : Int)
    (hw : 0 < width) (hw' : width ≤ jintMax) (hh : 0 < height) (hh' : height ≤ jintMax) :
    copyLen width height = (width * height).toNat ∧
      toSizeT width * toSizeT height < 2 ^ 64 ∧
      (height ≤ 1431655765 →
        yuvRows height = height + height / 2 ∧ height + height / 2 ≤ jintMax) ∧
      (1431655765 < height →
        yuvRows height = height + height / 2 - 2 ^ 32 ∧ jintMax < height + height / 2) := by
  refine ⟨copyLen_exact width height hw hw' hh hh', ?_, ?_, ?_⟩
  · rw [toSizeT_of_nonneg width hw.le hw', toSizeT_of_nonneg height hh.le hh']
    unfold jintMax at hw' hh'
    have h1 : width.toNat ≤ 2 ^ 31 := by omega
    have h2 : height.toNat ≤ 2 ^ 31 := by omega
    calc width.toNat * height.toNat ≤ 2 ^ 31 * 2 ^ 31 := Nat.mul_le_mul h1 h2
      _ < 2 ^ 64 := by norm_num
  · intro hb
    refine ⟨yuvRows_exact height hh hb, ?_⟩
    unfold jintMax
    omega
  · intro hb
    refine ⟨yuvRows_wraps height hb hh', ?_⟩
    unfold jintMax
    omega

theorem size_computations_witness :
    copyLen 640 480 = ((640 : Int) * 480).toNat ∧
      toSizeT 640 * toSizeT 480 < 2 ^ 64 ∧
      ((480 : Int) ≤ 1431655765 →
        yuvRows 480 = 480 + 480 / 2 ∧ (480 : Int) + 480 / 2 ≤ jintMax) ∧
      ((1431655765 : Int) < 480 →
        yuvRows 480 = 480 + 480 / 2 - 2 ^ 32 ∧ jintMax < (480 : Int) + 480 / 2) :=
  size_computations 640 480 (by decide) (by decide) (by decide) (by decide)

/-- C10 fails as stated: `height = 2^31 - 1` passes validation, the mathematical
row count is 3221225470, above `2^31 - 1`, and the 32-bit sum is
-1073741826. -/
theorem yuvRows_wraps_at_jintMax :
    (0 : Int) < 2147483647 ∧ (2147483647 : Int) ≤ jintMax ∧
      (2147483647 : Int) + 2147483647 / 2 = 3221225470 ∧
      jintMax < (2147483647 : Int) + 2147483647 / 2 ∧
      yuvRows 2147483647 = -1073741826 := by
  decide

end EdgeViewer
